import Mathlib

/-!
Verification development for the liquid-layout constraint-based layout engine.

The Rust sources are shallowly embedded:

* `src/layout/measure.rs` / `src/layout/prop.rs` — the arena-allocated
  `Measure` / `Prop` expression algebra, with node identity modelled as the
  index into an explicit allocation list (the bump arena), and the pool of
  pre-allocated integer constants 0–15 occupying the first 16 indices.
* `src/layout/context.rs` — `LayoutContext` (the arena) and `Z3BuildContext`
  (the per-build translation caches keyed by node identity).
* `src/layout/builder.rs` — the solve driver, with the external solver
  (z3's `Optimize`) represented by an oracle supplying the check outcome and
  the model's evaluation of translated nodes.
* `src/widgets/rectangle.rs` — the canonical rectangle widget and its group
  helpers.

Floating-point arithmetic (`f64`) is modelled exactly: a finite binary64
value is represented by the rational number it denotes, and every `f64`
operation performed by the code rounds its exact rational result to 53
significant bits, to nearest, ties to even (`round64` below).  Subnormal
underflow and overflow to infinity are outside the modelled range; every
value appearing in the theorems of this file is a normal, finite double.
-/

namespace LiquidLayout

set_option maxRecDepth 40000
set_option maxHeartbeats 1000000

/-! ## Exact model of binary64 arithmetic -/

/-- Floor of a rational number, computed directly on the numerator and the
(positive) denominator so that kernel reduction never has to unfold the
`FloorRing` instance. -/
def qfloor (q : ℚ) : ℤ := q.num.ediv q.den

/-- Truncation of a rational toward zero, the rounding used by Rust's
`as i64` cast on floats. -/
def qtrunc (q : ℚ) : ℤ := if 0 ≤ q.num then qfloor q else -qfloor (-q)

/-- Absolute value, written on the numerator to keep reduction shallow. -/
def qabs (q : ℚ) : ℚ := if q.num < 0 then -q else q

/-- Round a rational to the nearest integer, ties to even — the IEEE-754
default rounding of the significand. -/
def rne (x : ℚ) : ℤ :=
  let f := qfloor x
  let r := x - (f : ℚ)
  if r < 1/2 then f
  else if 1/2 < r then f + 1
  else if f % 2 = 0 then f else f + 1

/-- `pow2 e` is the rational `2 ^ e` for an integer exponent, avoiding the
`zpow` type-class path. -/
def pow2 : ℤ → ℚ
  | .ofNat n => mkRat (2 ^ n : ℕ) 1
  | .negSucc n => mkRat 1 (2 ^ (n + 1))

/-- Fuel-driven binary logarithm, upward direction (`1 ≤ q`). -/
def elogUp : ℕ → ℚ → ℤ
  | 0, _ => 0
  | f + 1, q => if q < 2 then 0 else 1 + elogUp f (q / 2)

/-- Fuel-driven binary logarithm, downward direction (`q < 1`). -/
def elogDown : ℕ → ℚ → ℤ
  | 0, _ => 0
  | f + 1, q => if 1 ≤ q then 0 else elogDown f (q * 2) - 1

/-- Greatest `e` with `2 ^ e ≤ q`, for positive `q`.  The fuel 1200 covers
the entire binary64 exponent range. -/
def elog2 (q : ℚ) : ℤ := if 1 ≤ q then elogUp 1200 q else elogDown 1200 q

/-- Positive case of binary64 rounding: scale into the 53-bit significand
range, round to nearest (ties to even), scale back. -/
def round64pos (a : ℚ) : ℚ :=
  let e := elog2 a - 52
  (rne (a / pow2 e) : ℚ) * pow2 e

/-- Round an exact rational to the nearest binary64 value (round to nearest,
ties to even, 53-bit significand; normal range). -/
def round64 (q : ℚ) : ℚ :=
  if q.num = 0 then 0
  else if q.num < 0 then -round64pos (-q)
  else round64pos q

/-- Exact value of the binary64 product `a * b`. -/
def fmul (a b : ℚ) : ℚ := round64 (a * b)

/-- Exact value of the binary64 quotient `a / b`. -/
def fdiv (a b : ℚ) : ℚ := round64 (a / b)

/-- Exact value of the binary64 difference `a - b`. -/
def fsub (a b : ℚ) : ℚ := round64 (a - b)

/-- Exact value of the binary64 nearest to the integer `k`
(Rust's `as f64` on an `i64`). -/
def f64ofInt (k : ℤ) : ℚ := round64 (mkRat k 1)

/-- Rust's saturating `as i64` cast on a finite float: truncate toward
zero, clamping to the `i64` range. -/
def i64sat (q : ℚ) : ℤ :=
  if (9223372036854775807 : ℚ) ≤ q then 9223372036854775807
  else if q ≤ (-9223372036854775808 : ℚ) then -9223372036854775808
  else qtrunc q

/-- `f64::EPSILON`, the machine epsilon `2 ^ (-52)`. -/
def f64EPSILON : ℚ := mkRat 1 4503599627370496

/-! ## The external `fraction` crate (float → exact fraction) -/

/-- Bounded search for the decimal rational with the fewest fractional
digits that rounds to the given binary64 value: candidate `p` rounds
`q * 10 ^ p` to the nearest integer and checks that the resulting decimal
maps back to `q` under binary64 rounding. -/
def decSearch : ℕ → ℚ → ℕ → Option ℚ
  | 0, _, _ => none
  | f + 1, q, p =>
    let d := mkRat (rne (q * mkRat (10 ^ p : ℕ) 1)) (10 ^ p)
    let r := round64 d
    if r.num == q.num && r.den == q.den then some d else decSearch f q (p + 1)

/-- Shortest decimal representation (as an exact rational) of a binary64
value: the decimal with the fewest fractional digits that round-trips. -/
def shortestDecimal (q : ℚ) : Option ℚ := decSearch 40 q 0

/-- Modelled from the spec: the external `fraction` crate's
`GenericFraction::<i32>::from(f64)` (not part of this repository) formats
the float as its shortest round-tripping decimal representation and parses
the digits back with checked `i32` arithmetic, so it reproduces the exact
decimal rational the float denotes and fails (yielding a NaN fraction,
whose `numer()`/`denom()` are `None`) when a component exceeds the `i32`
range.  The spec (§4.1) requires exactly this: "float→fraction conversion
must reproduce the same rational for any float representable with ≤2
decimal digits", with `BadConst` surfaced when the value "cannot be
converted to an exact small-denominator fraction".  The result is the
signed numerator and positive denominator of the reduced fraction. -/
def genericFractionFromF64 (q : ℚ) : Option (ℤ × ℤ) :=
  match shortestDecimal q with
  | some d =>
    if d.num.natAbs ≤ 2147483647 ∧ d.den ≤ 2147483647 then
      some (d.num, (d.den : ℤ))
    else none
  | none => none

/-! ## Arena, measures and propositions

Node identity (the arena address in the Rust code) is the index into the
allocation list of a `LayoutContext`.  The static pool
`SMALL_MEASURE_CONSTS` of constants 0–15 occupies indices 0–15 of every
context, so that, as in the source, `new_const` returns the *same* node
identity for every request of a small non-negative integer constant. -/

/-- Handle to a measure node (`Measure` in `measure.rs`): the node's
arena identity. -/
structure Measure where
  id : ℕ
deriving DecidableEq, Repr

/-- Handle to a proposition node (`Prop` in `prop.rs`): the node's arena
identity together with the solver weight carried on the *handle* (the
weight is not part of the arena node, exactly as in the source, where it
lives on the `Prop` value and not behind the `variant` reference). -/
structure Prop' where
  id : ℕ
  weight : ℕ
deriving DecidableEq, Repr

/-- `MeasureVariant` from `measure.rs`. -/
inductive MeasureVariant where
  | unbound : MeasureVariant
  | const (num den : ℤ) : MeasureVariant
  | add (left right : Measure) : MeasureVariant
  | sub (left right : Measure) : MeasureVariant
  | mul (left right : Measure) : MeasureVariant
  | div (left right : Measure) : MeasureVariant
  | select (cond : Prop') (left right : Measure) : MeasureVariant
deriving DecidableEq, Repr

/-- `PropVariant` from `prop.rs`. -/
inductive PropVariant where
  | eq (left right : Measure) : PropVariant
  | lt (left right : Measure) : PropVariant
  | le (left right : Measure) : PropVariant
  | gt (left right : Measure) : PropVariant
  | ge (left right : Measure) : PropVariant
  | or (left right : Prop') : PropVariant
  | and (left right : Prop') : PropVariant
  | not (that : Prop') : PropVariant
deriving DecidableEq, Repr

/-- `LayoutContext` from `context.rs`: the bump arena, as explicit
allocation lists (one per node kind, since the two caches are keyed
separately). -/
structure LayoutContext where
  measureNodes : List MeasureVariant
  propNodes : List PropVariant
deriving DecidableEq, Repr

/-- The 16 pooled constants `SMALL_MEASURE_CONSTS` (indices 0–15). -/
def smallMeasureConsts : List MeasureVariant :=
  (List.range 16).map (fun i => .const (i : ℤ) 1)

/-- `LayoutContext::new()`: a fresh arena.  The static constant pool is
part of every context's address space, here at indices 0–15. -/
def LayoutContext.new : LayoutContext :=
  { measureNodes := smallMeasureConsts, propNodes := [] }

/-- Bump-allocate a measure node; its identity is the next index. -/
def allocMeasure (c : LayoutContext) (v : MeasureVariant) : LayoutContext × ℕ :=
  ({ c with measureNodes := c.measureNodes ++ [v] }, c.measureNodes.length)

/-- Bump-allocate a proposition node; its identity is the next index. -/
def allocProp (c : LayoutContext) (v : PropVariant) : LayoutContext × ℕ :=
  ({ c with propNodes := c.propNodes ++ [v] }, c.propNodes.length)

/-- Dereference a measure node. -/
def getMeasure (c : LayoutContext) (i : ℕ) : Option MeasureVariant :=
  c.measureNodes[i]?

/-- Dereference a proposition node. -/
def getProp (c : LayoutContext) (i : ℕ) : Option PropVariant :=
  c.propNodes[i]?

/-- `MeasureError` from `measure.rs`. -/
inductive MeasureError where
  | BadConst : MeasureError
deriving DecidableEq, Repr

/-- `Measure::zero`: the pooled constant 0. -/
def Measure.zero : Measure := ⟨0⟩

/-- `Measure::new_const` from `measure.rs`, line by line:
`value` is first snapped to two decimal digits by
`((value * 100.0) as i64) as f64 / 100.0` — note the truncating `as i64`
cast — then served from the small-integer pool when it is integral
(within `f64::EPSILON`) and in `0..16`, and otherwise converted to an
exact fraction by the `fraction` crate, whose component overflow surfaces
as `BadConst`.  The source multiplies the crate's unsigned numerator by
`sign`; since `genericFractionFromF64` already returns the signed
numerator of a value with the sign of `value`, that composition is the
pair returned here. -/
def Measure.new_const (c : LayoutContext) (v : ℚ) :
    Except MeasureError (LayoutContext × Measure) :=
  let value := fdiv (f64ofInt (i64sat (fmul v 100))) 100
  if qabs (fsub (f64ofInt (i64sat value)) value) < f64EPSILON ∧
      0 ≤ i64sat value ∧ i64sat value < 16 then
    .ok (c, ⟨(i64sat value).toNat⟩)
  else
    match genericFractionFromF64 value with
    | some (n, d) =>
      let r := allocMeasure c (.const n d)
      .ok (r.1, ⟨r.2⟩)
    | none => .error .BadConst

/-- `Measure::new_unbound`. -/
def Measure.new_unbound (c : LayoutContext) : LayoutContext × Measure :=
  let r := allocMeasure c .unbound
  (r.1, ⟨r.2⟩)

/-- The constant denoted by a measure handle, when it is a `Const` node. -/
def constDenote (c : LayoutContext) (m : Measure) : Option ℚ :=
  match getMeasure c m.id with
  | some (.const n d) => some (mkRat n d.toNat)
  | _ => none

deriving instance DecidableEq for Except

/-! ## Measure and proposition algebra (operators) -/

/-- `Measure::prop_eq`: allocate an `Eq` proposition with default weight 10. -/
def Measure.prop_eq (c : LayoutContext) (a b : Measure) : LayoutContext × Prop' :=
  let r := allocProp c (.eq a b)
  (r.1, ⟨r.2, 10⟩)

/-- `Measure::prop_lt`: allocate a `Lt` proposition with default weight 10. -/
def Measure.prop_lt (c : LayoutContext) (a b : Measure) : LayoutContext × Prop' :=
  let r := allocProp c (.lt a b)
  (r.1, ⟨r.2, 10⟩)

/-- `Measure::prop_le`: allocate a `Le` proposition with default weight 10. -/
def Measure.prop_le (c : LayoutContext) (a b : Measure) : LayoutContext × Prop' :=
  let r := allocProp c (.le a b)
  (r.1, ⟨r.2, 10⟩)

/-- `Measure::prop_gt`: allocate a `Gt` proposition with default weight 10. -/
def Measure.prop_gt (c : LayoutContext) (a b : Measure) : LayoutContext × Prop' :=
  let r := allocProp c (.gt a b)
  (r.1, ⟨r.2, 10⟩)

/-- `Measure::prop_ge`: allocate a `Ge` proposition with default weight 10. -/
def Measure.prop_ge (c : LayoutContext) (a b : Measure) : LayoutContext × Prop' :=
  let r := allocProp c (.ge a b)
  (r.1, ⟨r.2, 10⟩)

/-- `Prop::select` from `prop.rs`: allocate a `Select` measure node. -/
def Prop'.select (c : LayoutContext) (p : Prop') (left right : Measure) :
    LayoutContext × Measure :=
  let r := allocMeasure c (.select p left right)
  (r.1, ⟨r.2⟩)

/-- `Prop::with_weight`: rebind the weight carried on the handle; the
arena node (the identity) is untouched. -/
def Prop'.with_weight (p : Prop') (weight : ℕ) : Prop' :=
  { p with weight := weight }

/-- `Measure::min`: `self.prop_lt(that).select(self, that)`. -/
def Measure.min (c : LayoutContext) (a b : Measure) : LayoutContext × Measure :=
  let r := Measure.prop_lt c a b
  Prop'.select r.1 r.2 a b

/-- `Measure::max`: `self.prop_gt(that).select(self, that)`. -/
def Measure.max (c : LayoutContext) (a b : Measure) : LayoutContext × Measure :=
  let r := Measure.prop_gt c a b
  Prop'.select r.1 r.2 a b

/-- `impl Add for Measure`: allocate an `Add` node. -/
def Measure.add (c : LayoutContext) (a b : Measure) : LayoutContext × Measure :=
  let r := allocMeasure c (.add a b)
  (r.1, ⟨r.2⟩)

/-- `impl Sub for Measure`: allocate a `Sub` node. -/
def Measure.sub (c : LayoutContext) (a b : Measure) : LayoutContext × Measure :=
  let r := allocMeasure c (.sub a b)
  (r.1, ⟨r.2⟩)

/-- `impl Mul for Measure`: allocate a `Mul` node. -/
def Measure.mul (c : LayoutContext) (a b : Measure) : LayoutContext × Measure :=
  let r := allocMeasure c (.mul a b)
  (r.1, ⟨r.2⟩)

/-- `impl Div for Measure`: allocate a `Div` node. -/
def Measure.div (c : LayoutContext) (a b : Measure) : LayoutContext × Measure :=
  let r := allocMeasure c (.div a b)
  (r.1, ⟨r.2⟩)

/-- `impl Add<f64> for Measure`: `self + Measure::new_const(self.ctx, other).unwrap()`.
The `unwrap` aborts (panics) when `new_const` fails with `BadConst`;
the abort is modelled as `none`. -/
def Measure.add_f64 (c : LayoutContext) (a : Measure) (v : ℚ) :
    Option (LayoutContext × Measure) :=
  match Measure.new_const c v with
  | .ok r => some (Measure.add r.1 a r.2)
  | .error _ => none

/-- `impl Sub<f64> for Measure`, `unwrap` modelled as for `add_f64`. -/
def Measure.sub_f64 (c : LayoutContext) (a : Measure) (v : ℚ) :
    Option (LayoutContext × Measure) :=
  match Measure.new_const c v with
  | .ok r => some (Measure.sub r.1 a r.2)
  | .error _ => none

/-- `impl Mul<f64> for Measure`, `unwrap` modelled as for `add_f64`. -/
def Measure.mul_f64 (c : LayoutContext) (a : Measure) (v : ℚ) :
    Option (LayoutContext × Measure) :=
  match Measure.new_const c v with
  | .ok r => some (Measure.mul r.1 a r.2)
  | .error _ => none

/-- `impl Div<f64> for Measure`, `unwrap` modelled as for `add_f64`. -/
def Measure.div_f64 (c : LayoutContext) (a : Measure) (v : ℚ) :
    Option (LayoutContext × Measure) :=
  match Measure.new_const c v with
  | .ok r => some (Measure.div r.1 a r.2)
  | .error _ => none

/-- `impl BitOr for Prop`: allocate an `Or` node; the resulting handle
carries the default weight 10 regardless of the operand weights. -/
def Prop'.or (c : LayoutContext) (a b : Prop') : LayoutContext × Prop' :=
  let r := allocProp c (.or a b)
  (r.1, ⟨r.2, 10⟩)

/-- `impl BitAnd for Prop`: allocate an `And` node with default weight 10. -/
def Prop'.and (c : LayoutContext) (a b : Prop') : LayoutContext × Prop' :=
  let r := allocProp c (.and a b)
  (r.1, ⟨r.2, 10⟩)

/-- `impl Not for Prop`: allocate a `Not` node with default weight 10. -/
def Prop'.not (c : LayoutContext) (a : Prop') : LayoutContext × Prop' :=
  let r := allocProp c (.not a)
  (r.1, ⟨r.2, 10⟩)

/-! ## Translation / caching layer (`build_z3`)

The solver side is modelled by counting: every invocation of a z3
construction API (`fresh_const`, `from_real`, `add`, …, `ite`, `_eq`,
`Bool::or`, …) creates one new distinct solver-side expression, numbered
by the `fresh` counter of the build context.  `Measure::build_z3` and
`Prop::build_z3` are the two faces of one fuelled function (so that the
mutual recursion through `Select` stays structural); the two memoization
maps of `Z3BuildContext` are kept separate, keyed by node identity, and
for propositions the key ignores the carried weight, exactly as in the
source where the key is the `variant` address alone. -/

/-- `Z3BuildContext` from `context.rs`; `fresh` counts the solver-side
expressions constructed so far. -/
structure Z3BuildContext where
  measure_cache : List (ℕ × ℕ)
  prop_cache : List (ℕ × ℕ)
  fresh : ℕ
deriving DecidableEq, Repr

/-- `Z3BuildContext::new`. -/
def Z3BuildContext.new : Z3BuildContext := ⟨[], [], 0⟩

/-- The fuelled translation of a measure (`.inl`) or proposition (`.inr`)
node: on a cache hit the cached solver expression is returned and the
state is untouched; on a miss the node is translated (`do_build_z3`),
allocating one new solver expression per construction call, and the
result is memoized under the node's identity. -/
def buildZ3 : ℕ → LayoutContext → Measure ⊕ Prop' → Z3BuildContext →
    Option (ℕ × Z3BuildContext)
  | 0, _, _, _ => none
  | fuel + 1, c, .inl m, s =>
    match s.measure_cache.lookup m.id with
    | some e => some (e, s)
    | none =>
      (match getMeasure c m.id with
        | none => none
        | some .unbound => some (s.fresh, { s with fresh := s.fresh + 1 })
        | some (.const _ _) => some (s.fresh, { s with fresh := s.fresh + 1 })
        | some (.add l r) =>
          (buildZ3 fuel c (.inl l) s).bind fun rl =>
            (buildZ3 fuel c (.inl r) rl.2).bind fun rr =>
              some (rr.2.fresh, { rr.2 with fresh := rr.2.fresh + 1 })
        | some (.sub l r) =>
          (buildZ3 fuel c (.inl l) s).bind fun rl =>
            (buildZ3 fuel c (.inl r) rl.2).bind fun rr =>
              some (rr.2.fresh, { rr.2 with fresh := rr.2.fresh + 1 })
        | some (.mul l r) =>
          (buildZ3 fuel c (.inl l) s).bind fun rl =>
            (buildZ3 fuel c (.inl r) rl.2).bind fun rr =>
              some (rr.2.fresh, { rr.2 with fresh := rr.2.fresh + 1 })
        | some (.div l r) =>
          (buildZ3 fuel c (.inl l) s).bind fun rl =>
            (buildZ3 fuel c (.inl r) rl.2).bind fun rr =>
              some (rr.2.fresh, { rr.2 with fresh := rr.2.fresh + 1 })
        | some (.select p l r) =>
          (buildZ3 fuel c (.inr p) s).bind fun rp =>
            (buildZ3 fuel c (.inl l) rp.2).bind fun rl =>
              (buildZ3 fuel c (.inl r) rl.2).bind fun rr =>
                some (rr.2.fresh, { rr.2 with fresh := rr.2.fresh + 1 })
        : Option (ℕ × Z3BuildContext)).map
        fun r => (r.1, { r.2 with measure_cache := (m.id, r.1) :: r.2.measure_cache })
  | fuel + 1, c, .inr p, s =>
    match s.prop_cache.lookup p.id with
    | some e => some (e, s)
    | none =>
      (match getProp c p.id with
        | none => none
        | some (.eq l r) =>
          (buildZ3 fuel c (.inl l) s).bind fun rl =>
            (buildZ3 fuel c (.inl r) rl.2).bind fun rr =>
              some (rr.2.fresh, { rr.2 with fresh := rr.2.fresh + 1 })
        | some (.lt l r) =>
          (buildZ3 fuel c (.inl l) s).bind fun rl =>
            (buildZ3 fuel c (.inl r) rl.2).bind fun rr =>
              some (rr.2.fresh, { rr.2 with fresh := rr.2.fresh + 1 })
        | some (.le l r) =>
          (buildZ3 fuel c (.inl l) s).bind fun rl =>
            (buildZ3 fuel c (.inl r) rl.2).bind fun rr =>
              some (rr.2.fresh, { rr.2 with fresh := rr.2.fresh + 1 })
        | some (.gt l r) =>
          (buildZ3 fuel c (.inl l) s).bind fun rl =>
            (buildZ3 fuel c (.inl r) rl.2).bind fun rr =>
              some (rr.2.fresh, { rr.2 with fresh := rr.2.fresh + 1 })
        | some (.ge l r) =>
          (buildZ3 fuel c (.inl l) s).bind fun rl =>
            (buildZ3 fuel c (.inl r) rl.2).bind fun rr =>
              some (rr.2.fresh, { rr.2 with fresh := rr.2.fresh + 1 })
        | some (.or a b) =>
          (buildZ3 fuel c (.inr a) s).bind fun ra =>
            (buildZ3 fuel c (.inr b) ra.2).bind fun rb =>
              some (rb.2.fresh, { rb.2 with fresh := rb.2.fresh + 1 })
        | some (.and a b) =>
          (buildZ3 fuel c (.inr a) s).bind fun ra =>
            (buildZ3 fuel c (.inr b) ra.2).bind fun rb =>
              some (rb.2.fresh, { rb.2 with fresh := rb.2.fresh + 1 })
        | some (.not a) =>
          (buildZ3 fuel c (.inr a) s).bind fun ra =>
            some (ra.2.fresh, { ra.2 with fresh := ra.2.fresh + 1 })
        : Option (ℕ × Z3BuildContext)).map
        fun r => (r.1, { r.2 with prop_cache := (p.id, r.1) :: r.2.prop_cache })

/-- `Measure::build_z3`. -/
def Measure.build_z3 (fuel : ℕ) (c : LayoutContext) (m : Measure)
    (s : Z3BuildContext) : Option (ℕ × Z3BuildContext) :=
  buildZ3 fuel c (.inl m) s

/-- `Prop::build_z3`. -/
def Prop'.build_z3 (fuel : ℕ) (c : LayoutContext) (p : Prop')
    (s : Z3BuildContext) : Option (ℕ × Z3BuildContext) :=
  buildZ3 fuel c (.inr p) s

/-! ## Evaluation semantics

The meaning of a node under a solver model: unbound variables take the
value the model assigned (a function from node identity to an exact
rational, matching z3's exact rational model values for reals), constants
denote `num / den`, arithmetic is exact rational arithmetic (z3 reals,
not floats), `Select` is if-then-else, comparisons and connectives are
the usual ones.  Fuelled, since nodes reference other nodes by index. -/

/-- Evaluate a measure (`.inl`, giving `.inl q`) or proposition (`.inr`,
giving `.inr b`) node under the valuation `v` of unbound nodes. -/
def evalNode : ℕ → LayoutContext → (ℕ → ℚ) → Measure ⊕ Prop' →
    Option (ℚ ⊕ Bool)
  | 0, _, _, _ => none
  | fuel + 1, c, v, .inl m =>
    match getMeasure c m.id with
    | none => none
    | some .unbound => some (.inl (v m.id))
    | some (.const n d) => some (.inl (mkRat n d.toNat))
    | some (.add l r) =>
      (evalNode fuel c v (.inl l)).bind fun a =>
        (evalNode fuel c v (.inl r)).bind fun b =>
          match a, b with
          | .inl x, .inl y => some (.inl (x + y))
          | _, _ => none
    | some (.sub l r) =>
      (evalNode fuel c v (.inl l)).bind fun a =>
        (evalNode fuel c v (.inl r)).bind fun b =>
          match a, b with
          | .inl x, .inl y => some (.inl (x - y))
          | _, _ => none
    | some (.mul l r) =>
      (evalNode fuel c v (.inl l)).bind fun a =>
        (evalNode fuel c v (.inl r)).bind fun b =>
          match a, b with
          | .inl x, .inl y => some (.inl (x * y))
          | _, _ => none
    | some (.div l r) =>
      (evalNode fuel c v (.inl l)).bind fun a =>
        (evalNode fuel c v (.inl r)).bind fun b =>
          match a, b with
          | .inl x, .inl y => some (.inl (x / y))
          | _, _ => none
    | some (.select p l r) =>
      (evalNode fuel c v (.inr p)).bind fun cond =>
        match cond with
        | .inr true => evalNode fuel c v (.inl l)
        | .inr false => evalNode fuel c v (.inl r)
        | .inl _ => none
  | fuel + 1, c, v, .inr p =>
    match getProp c p.id with
    | none => none
    | some (.eq l r) =>
      (evalNode fuel c v (.inl l)).bind fun a =>
        (evalNode fuel c v (.inl r)).bind fun b =>
          match a, b with
          | .inl x, .inl y => some (.inr (x.num == y.num && x.den == y.den))
          | _, _ => none
    | some (.lt l r) =>
      (evalNode fuel c v (.inl l)).bind fun a =>
        (evalNode fuel c v (.inl r)).bind fun b =>
          match a, b with
          | .inl x, .inl y => some (.inr (decide (x < y)))
          | _, _ => none
    | some (.le l r) =>
      (evalNode fuel c v (.inl l)).bind fun a =>
        (evalNode fuel c v (.inl r)).bind fun b =>
          match a, b with
          | .inl x, .inl y => some (.inr (decide (x ≤ y)))
          | _, _ => none
    | some (.gt l r) =>
      (evalNode fuel c v (.inl l)).bind fun a =>
        (evalNode fuel c v (.inl r)).bind fun b =>
          match a, b with
          | .inl x, .inl y => some (.inr (decide (y < x)))
          | _, _ => none
    | some (.ge l r) =>
      (evalNode fuel c v (.inl l)).bind fun a =>
        (evalNode fuel c v (.inl r)).bind fun b =>
          match a, b with
          | .inl x, .inl y => some (.inr (decide (y ≤ x)))
          | _, _ => none
    | some (.or a b) =>
      (evalNode fuel c v (.inr a)).bind fun x =>
        (evalNode fuel c v (.inr b)).bind fun y =>
          match x, y with
          | .inr p1, .inr p2 => some (.inr (p1 || p2))
          | _, _ => none
    | some (.and a b) =>
      (evalNode fuel c v (.inr a)).bind fun x =>
        (evalNode fuel c v (.inr b)).bind fun y =>
          match x, y with
          | .inr p1, .inr p2 => some (.inr (p1 && p2))
          | _, _ => none
    | some (.not a) =>
      (evalNode fuel c v (.inr a)).bind fun x =>
        match x with
        | .inr p1 => some (.inr (!p1))
        | .inl _ => none

/-- Value of a measure node under a model valuation. -/
def evalMeasure (fuel : ℕ) (c : LayoutContext) (v : ℕ → ℚ) (m : Measure) :
    Option ℚ :=
  match evalNode fuel c v (.inl m) with
  | some (.inl q) => some q
  | _ => none

/-! ## Layout builder / solve driver (`builder.rs`)

The external optimizing solver is summarized by an `Oracle`: the outcome
of `Optimize::check` and, after a `Sat` outcome, the model's evaluation
of each node's translated form.  Within one build the translation of a
fixed node is created once and then served from the cache
(see the caching theorem below), and z3 model evaluation is a pure
function of the evaluated expression, so the model's verdict on a node is
a function of the node's identity — which is how the oracle is keyed. -/

/-- Verdict of `Optimize::check` (z3's `SatResult`). -/
inductive SatResult where
  | sat : SatResult
  | unsat : SatResult
  | unknown : SatResult
deriving DecidableEq, Repr

/-- The solver summarized: the check verdict; `evalReal i` is the exact
rational `(num, den)` the model assigns to the translation of measure
node `i` (z3's `as_real`); `evalBool i` is the boolean the model assigns
to the translation of proposition node `i` (z3's `as_bool`). -/
structure Oracle where
  check : SatResult
  evalReal : ℕ → ℤ × ℤ
  evalBool : ℕ → Bool

/-- A type-erased widget as the builder sees it (`dyn RawWidget`):
its declared measures, its structural constraints, and its `paint`
method.  `paint` returning `none` models an abort (an out-of-bounds
slice index); `some false` models a recoverable `Err` from the painter;
`some true` is `Ok(())`. -/
structure RawWidgetData where
  measures : List Measure
  constraints : List Prop'
  paint : List ℚ → Option Bool

/-- `LayoutUnsatError` from `builder.rs`, extended with the propagated
widget `paint` failure (`w.paint(&refined_values)?`), which in the source
travels as a separate `anyhow` error through the same `Result`. -/
inductive BuildError where
  | Unsat : BuildError
  | Unknown : BuildError
  | PaintFailed : BuildError
deriving DecidableEq, Repr

/-- `BuildReport` from `builder.rs`. -/
structure BuildReport where
  satisfied_constraints : List Prop'
  unsatisfied_constraints : List Prop'
deriving DecidableEq, Repr

/-- The constraint set submitted to the solve: every widget's declared
constraint list, widgets in push order, concatenated with the explicitly
pushed constraints in push order
(`widgets.iter().map(constraints).flatten().chain(self.constraints)`). -/
def gatherConstraints (widgets : List RawWidgetData) (explicit : List Prop') :
    List Prop' :=
  (widgets.map fun w => w.constraints).flatten ++ explicit

/-- The classification loop at the end of `build`: one pass over the
submitted constraints, pushing each onto the satisfied or the unsatisfied
vector according to the model's verdict on its identity. -/
def classifyLoop (verdict : ℕ → Bool) :
    List Prop' → List Prop' → List Prop' → List Prop' × List Prop'
  | [], satAcc, unsatAcc => (satAcc, unsatAcc)
  | p :: rest, satAcc, unsatAcc =>
    if verdict p.id then classifyLoop verdict rest (satAcc ++ [p]) unsatAcc
    else classifyLoop verdict rest satAcc (unsatAcc ++ [p])

/-- The conversion of a model value to a float in `build`
(`refined_values.push(num as f64 / den as f64)`). -/
def solverRealToF64 (num den : ℤ) : ℚ :=
  fdiv (f64ofInt num) (f64ofInt den)

/-- The refined values handed to one widget: for each declared measure, in
declaration order, the model's exact rational converted to a float by
`num as f64 / den as f64`. -/
def refinedValues (o : Oracle) (w : RawWidgetData) : List ℚ :=
  w.measures.map fun m =>
    solverRealToF64 (o.evalReal m.id).1 (o.evalReal m.id).2

/-- The widget dispatch loop of `build`: each widget is consumed in push
order and painted with its refined values; a painter `Err` aborts the
loop (later widgets stay unpainted), an indexing abort inside `paint`
propagates as `none`.  Returns the argument lists passed to `paint` and
whether every painter returned `Ok`. -/
def paintAll (o : Oracle) : List RawWidgetData → Option (List (List ℚ) × Bool)
  | [] => some ([], true)
  | w :: rest =>
    let vals := refinedValues o w
    match w.paint vals with
    | none => none
    | some false => some ([vals], false)
    | some true =>
      match paintAll o rest with
      | some (log, ok) => some (vals :: log, ok)
      | none => none

/-- `LayoutBuilder::build`: gather the constraints, ask the solver
(assertion of the soft constraints and the `check` call are summarized by
the oracle verdict), fail on `Unsat`/`Unknown`, dispatch refined values
to the widgets, then re-evaluate every constraint against the model and
classify.  The outer `Option` is `none` only when a widget aborts. -/
def LayoutBuilder.build (widgets : List RawWidgetData) (explicit : List Prop')
    (o : Oracle) : Option (Except BuildError (List (List ℚ) × BuildReport)) :=
  let constraints := gatherConstraints widgets explicit
  match o.check with
  | .unsat => some (.error .Unsat)
  | .unknown => some (.error .Unknown)
  | .sat =>
    match paintAll o widgets with
    | none => none
    | some (log, ok) =>
      if ok then
        let r := classifyLoop o.evalBool constraints [] []
        some (.ok (log, ⟨r.1, r.2⟩))
      else some (.error .PaintFailed)

/-! ## The canonical rectangle widget (`rectangle.rs`) -/

/-- `RectangleError` from `rectangle.rs`. -/
inductive RectangleError where
  | EmptyGroup : RectangleError
deriving DecidableEq, Repr

/-- `RectangleMeasures`. -/
structure RectangleMeasures where
  left : Measure
  right : Measure
  top : Measure
  bottom : Measure
  width : Measure
  height : Measure
deriving DecidableEq, Repr

/-- `Point`. -/
structure Point where
  x : Measure
  y : Measure
deriving DecidableEq, Repr

/-- `RectangleMetrics`: the resolved floats handed to the painter. -/
structure RectangleMetrics where
  left : ℚ
  right : ℚ
  top : ℚ
  bottom : ℚ
  width : ℚ
  height : ℚ
deriving DecidableEq, Repr

/-- `Rectangle`, minus the externally supplied painter closure (carried
separately where a widget is wired up). -/
structure Rectangle where
  left : Measure
  right : Measure
  top : Measure
  bottom : Measure
  width : Measure
  height : Measure
deriving DecidableEq, Repr

/-- `RawWidget::measures for Rectangle`: the six measures, in the fixed
order left, right, top, bottom, width, height. -/
def Rectangle.measuresList (r : Rectangle) : List Measure :=
  [r.left, r.right, r.top, r.bottom, r.width, r.height]

/-- `RawWidget::constraints for Rectangle`: the six structural
propositions, in source order.  The two `Measure::new_const(ctx, 0.0)`
calls are `unwrap`ped in the source; `none` models that abort (it is
proved unreachable below, since the constant 0 is pooled). -/
def Rectangle.constraints (c : LayoutContext) (r : Rectangle) :
    Option (LayoutContext × List Prop') :=
  let a1 := Measure.add c r.left r.width
  let p1 := Measure.prop_eq a1.1 a1.2 r.right
  let a2 := Measure.add p1.1 r.top r.height
  let p2 := Measure.prop_eq a2.1 a2.2 r.bottom
  let p3 := Measure.prop_ge p2.1 r.top Measure.zero
  let p4 := Measure.prop_ge p3.1 r.left Measure.zero
  match Measure.new_const p4.1 0 with
  | .error _ => none
  | .ok (c5, z1) =>
    let p5 := Measure.prop_ge c5 r.width z1
    match Measure.new_const p5.1 0 with
    | .error _ => none
    | .ok (c6, z2) =>
      let p6 := Measure.prop_ge c6 r.height z2
      some (p6.1, [p1.2, p2.2, p3.2, p4.2, p5.2, p6.2])

/-- `RawWidget::paint for Rectangle`: read the six resolved values at
indices 0–5 — with no length guard, so a shorter slice is an
out-of-bounds abort, modelled as `none` — and build the metrics handed
to the painter closure. -/
def Rectangle.paint (measures : List ℚ) : Option RectangleMetrics :=
  match measures[0]?, measures[1]?, measures[2]?,
      measures[3]?, measures[4]?, measures[5]? with
  | some l, some r, some t, some b, some w, some h =>
    some ⟨l, r, t, b, w, h⟩
  | _, _, _, _, _, _ => none

/-- A `RawWidgetData` wired up from a `Rectangle` and its painter: the
declared measures are the rectangle's six, and `paint` is
`Rectangle::paint` feeding the metrics to the painter closure. -/
def Rectangle.rawWidget (r : Rectangle) (constraints : List Prop')
    (painter : RectangleMetrics → Bool) : RawWidgetData :=
  { measures := r.measuresList
    constraints := constraints
    paint := fun vals => (Rectangle.paint vals).map painter }

/-- `Iterator::reduce` over measures with a state-threading combining
operation, as used by the group helpers. -/
def reduceMeasures (op : LayoutContext → Measure → Measure → LayoutContext × Measure) :
    LayoutContext → Measure → List Measure → LayoutContext × Measure
  | c, acc, [] => (c, acc)
  | c, acc, m :: rest =>
    let r := op c acc m
    reduceMeasures op r.1 r.2 rest

/-- `RectangleMeasures::group_leftmost`: `EmptyGroup` on an empty slice,
otherwise the fold of the members' left edges under `min`. -/
def group_leftmost (c : LayoutContext) (group : List RectangleMeasures) :
    Except RectangleError (LayoutContext × Measure) :=
  match group with
  | [] => .error .EmptyGroup
  | x :: rest =>
    .ok (reduceMeasures Measure.min c x.left (rest.map fun y => y.left))

/-- `RectangleMeasures::group_rightmost`: fold of right edges under `max`. -/
def group_rightmost (c : LayoutContext) (group : List RectangleMeasures) :
    Except RectangleError (LayoutContext × Measure) :=
  match group with
  | [] => .error .EmptyGroup
  | x :: rest =>
    .ok (reduceMeasures Measure.max c x.right (rest.map fun y => y.right))

/-- `RectangleMeasures::group_topmost`: fold of top edges under `min`. -/
def group_topmost (c : LayoutContext) (group : List RectangleMeasures) :
    Except RectangleError (LayoutContext × Measure) :=
  match group with
  | [] => .error .EmptyGroup
  | x :: rest =>
    .ok (reduceMeasures Measure.min c x.top (rest.map fun y => y.top))

/-- `RectangleMeasures::group_bottommost`: fold of bottom edges under `max`. -/
def group_bottommost (c : LayoutContext) (group : List RectangleMeasures) :
    Except RectangleError (LayoutContext × Measure) :=
  match group with
  | [] => .error .EmptyGroup
  | x :: rest =>
    .ok (reduceMeasures Measure.max c x.bottom (rest.map fun y => y.bottom))

/-- The four-way reduce inside `group_center`: componentwise
`(min left, max right, min top, max bottom)`. -/
def centerReduce : LayoutContext → Measure × Measure × Measure × Measure →
    List RectangleMeasures → LayoutContext × (Measure × Measure × Measure × Measure)
  | c, acc, [] => (c, acc)
  | c, (al, ar, at', ab), x :: rest =>
    let r1 := Measure.min c al x.left
    let r2 := Measure.max r1.1 ar x.right
    let r3 := Measure.min r2.1 at' x.top
    let r4 := Measure.max r3.1 ab x.bottom
    centerReduce r4.1 (r1.2, r2.2, r3.2, r4.2) rest

/-- `RectangleMeasures::group_center`: `EmptyGroup` on an empty slice,
otherwise fold the four edges and return the midpoint
`((left + right) / 2.0, (top + bottom) / 2.0)`.  The two `/ 2.0` are the
`Div<f64>` operator, whose `unwrap` abort is the outer `none` (proved
unreachable below: the constant 2 is pooled). -/
def group_center (c : LayoutContext) (group : List RectangleMeasures) :
    Option (Except RectangleError (LayoutContext × Point)) :=
  match group with
  | [] => some (.error .EmptyGroup)
  | x :: rest =>
    let red := centerReduce c (x.left, x.right, x.top, x.bottom) rest
    let (c1, (l, r, t, b)) := red
    let s1 := Measure.add c1 l r
    match Measure.div_f64 s1.1 s1.2 2 with
    | none => none
    | some (c2, px) =>
      let s2 := Measure.add c2 t b
      match Measure.div_f64 s2.1 s2.2 2 with
      | none => none
      | some (c3, py) => some (.ok (c3, ⟨px, py⟩))

/-! ## Shared helper lemmas -/

/-- Indexing into the right part of an appended list. -/
theorem getElem?_append_offset {α : Type} (l₁ l₂ : List α) (i : ℕ) :
    (l₁ ++ l₂)[l₁.length + i]? = l₂[i]? := by
  rw [List.getElem?_append_right (Nat.le_add_right _ _)]
  simp

/-- Requesting the constant 0 hits the small-integer pool: no allocation,
no failure, pooled identity 0, in every context. -/
theorem new_const_zero (c : LayoutContext) :
    Measure.new_const c 0 = .ok (c, ⟨0⟩) := by
  with_unfolding_all rfl

/-- Requesting the constant 2 hits the small-integer pool: no allocation,
no failure, pooled identity 2, in every context. -/
theorem new_const_two (c : LayoutContext) :
    Measure.new_const c 2 = .ok (c, ⟨2⟩) := by
  with_unfolding_all rfl

/-- After a successful translation of a measure node, its identity is
cached, mapped to the returned solver expression. -/
theorem buildZ3_lookup_after_measure (fuel : ℕ) (c : LayoutContext)
    (m : Measure) (s : Z3BuildContext) (e : ℕ) (s' : Z3BuildContext)
    (h : buildZ3 fuel c (.inl m) s = some (e, s')) :
    s'.measure_cache.lookup m.id = some e := by
  cases fuel with
  | zero => simp [buildZ3] at h
  | succ f =>
    simp only [buildZ3] at h
    split at h
    next e0 hl =>
      injection h with h1
      injection h1 with h2 h3
      subst h2; subst h3
      simpa using hl
    next hl =>
      cases hin : (match getMeasure c m.id with
        | none => none
        | some .unbound => some (s.fresh, { s with fresh := s.fresh + 1 })
        | some (.const _ _) => some (s.fresh, { s with fresh := s.fresh + 1 })
        | some (.add l r) =>
          (buildZ3 f c (.inl l) s).bind fun rl =>
            (buildZ3 f c (.inl r) rl.2).bind fun rr =>
              some (rr.2.fresh, { rr.2 with fresh := rr.2.fresh + 1 })
        | some (.sub l r) =>
          (buildZ3 f c (.inl l) s).bind fun rl =>
            (buildZ3 f c (.inl r) rl.2).bind fun rr =>
              some (rr.2.fresh, { rr.2 with fresh := rr.2.fresh + 1 })
        | some (.mul l r) =>
          (buildZ3 f c (.inl l) s).bind fun rl =>
            (buildZ3 f c (.inl r) rl.2).bind fun rr =>
              some (rr.2.fresh, { rr.2 with fresh := rr.2.fresh + 1 })
        | some (.div l r) =>
          (buildZ3 f c (.inl l) s).bind fun rl =>
            (buildZ3 f c (.inl r) rl.2).bind fun rr =>
              some (rr.2.fresh, { rr.2 with fresh := rr.2.fresh + 1 })
        | some (.select p l r) =>
          (buildZ3 f c (.inr p) s).bind fun rp =>
            (buildZ3 f c (.inl l) rp.2).bind fun rl =>
              (buildZ3 f c (.inl r) rl.2).bind fun rr =>
                some (rr.2.fresh, { rr.2 with fresh := rr.2.fresh + 1 })
        : Option (ℕ × Z3BuildContext)) with
      | none => rw [hin] at h; simp at h
      | some r =>
        rw [hin] at h
        simp only [Option.map_some'] at h
        injection h with h1
        injection h1 with h2 h3
        subst h2; subst h3
        simp [List.lookup]

/-- After a successful translation of a proposition node, its identity is
cached, mapped to the returned solver expression. -/
theorem buildZ3_lookup_after_prop (fuel : ℕ) (c : LayoutContext)
    (p : Prop') (s : Z3BuildContext) (e : ℕ) (s' : Z3BuildContext)
    (h : buildZ3 fuel c (.inr p) s = some (e, s')) :
    s'.prop_cache.lookup p.id = some e := by
  cases fuel with
  | zero => simp [buildZ3] at h
  | succ f =>
    simp only [buildZ3] at h
    split at h
    next e0 hl =>
      injection h with h1
      injection h1 with h2 h3
      subst h2; subst h3
      simpa using hl
    next hl =>
      cases hin : (match getProp c p.id with
        | none => none
        | some (.eq l r) =>
          (buildZ3 f c (.inl l) s).bind fun rl =>
            (buildZ3 f c (.inl r) rl.2).bind fun rr =>
              some (rr.2.fresh, { rr.2 with fresh := rr.2.fresh + 1 })
        | some (.lt l r) =>
          (buildZ3 f c (.inl l) s).bind fun rl =>
            (buildZ3 f c (.inl r) rl.2).bind fun rr =>
              some (rr.2.fresh, { rr.2 with fresh := rr.2.fresh + 1 })
        | some (.le l r) =>
          (buildZ3 f c (.inl l) s).bind fun rl =>
            (buildZ3 f c (.inl r) rl.2).bind fun rr =>
              some (rr.2.fresh, { rr.2 with fresh := rr.2.fresh + 1 })
        | some (.gt l r) =>
          (buildZ3 f c (.inl l) s).bind fun rl =>
            (buildZ3 f c (.inl r) rl.2).bind fun rr =>
              some (rr.2.fresh, { rr.2 with fresh := rr.2.fresh + 1 })
        | some (.ge l r) =>
          (buildZ3 f c (.inl l) s).bind fun rl =>
            (buildZ3 f c (.inl r) rl.2).bind fun rr =>
              some (rr.2.fresh, { rr.2 with fresh := rr.2.fresh + 1 })
        | some (.or a b) =>
          (buildZ3 f c (.inr a) s).bind fun ra =>
            (buildZ3 f c (.inr b) ra.2).bind fun rb =>
              some (rb.2.fresh, { rb.2 with fresh := rb.2.fresh + 1 })
        | some (.and a b) =>
          (buildZ3 f c (.inr a) s).bind fun ra =>
            (buildZ3 f c (.inr b) ra.2).bind fun rb =>
              some (rb.2.fresh, { rb.2 with fresh := rb.2.fresh + 1 })
        | some (.not a) =>
          (buildZ3 f c (.inr a) s).bind fun ra =>
            some (ra.2.fresh, { ra.2 with fresh := ra.2.fresh + 1 })
        : Option (ℕ × Z3BuildContext)) with
      | none => rw [hin] at h; simp at h
      | some r =>
        rw [hin] at h
        simp only [Option.map_some'] at h
        injection h with h1
        injection h1 with h2 h3
        subst h2; subst h3
        simp [List.lookup]

/-! ## Claim theorems -/

/-- C3: a second `build_z3` on the same node identity within one
`Z3BuildContext` is a pure cache hit: it returns the same solver
expression and leaves the build context — in particular the count of
solver-side construction calls (`fresh`) — completely unchanged, for
measures and propositions alike.  Hence each distinct identity is
translated at most once per build. -/
theorem C3_build_z3_cache_hit (fuel : ℕ) (c : LayoutContext)
    (s : Z3BuildContext) :
    (∀ (m : Measure) (e : ℕ) (s' : Z3BuildContext),
      Measure.build_z3 fuel c m s = some (e, s') →
      Measure.build_z3 fuel c m s' = some (e, s')) ∧
    (∀ (p : Prop') (e : ℕ) (s' : Z3BuildContext),
      Prop'.build_z3 fuel c p s = some (e, s') →
      Prop'.build_z3 fuel c p s' = some (e, s')) := by
  constructor
  · intro m e s' h
    have hc := buildZ3_lookup_after_measure fuel c m s e s' h
    cases fuel with
    | zero => simp [Measure.build_z3, buildZ3] at h
    | succ f =>
      simp only [Measure.build_z3, buildZ3]
      rw [hc]
  · intro p e s' h
    have hc := buildZ3_lookup_after_prop fuel c p s e s' h
    cases fuel with
    | zero => simp [Prop'.build_z3, buildZ3] at h
    | succ f =>
      simp only [Prop'.build_z3, buildZ3]
      rw [hc]

/-- Witness for C3 at a concrete input: translating the pooled constant 0
in a fresh build context yields solver expression 0 and a one-entry
cache, and the theorem then gives that the second translation returns
the same pair. -/
theorem C3_build_z3_cache_hit_witness :
    Measure.build_z3 1 LayoutContext.new ⟨0⟩ Z3BuildContext.new
        = some (0, ⟨[(0, 0)], [], 1⟩) ∧
    Measure.build_z3 1 LayoutContext.new ⟨0⟩ ⟨[(0, 0)], [], 1⟩
        = some (0, ⟨[(0, 0)], [], 1⟩) :=
  ⟨by with_unfolding_all decide,
    (C3_build_z3_cache_hit 1 LayoutContext.new Z3BuildContext.new).1
      ⟨0⟩ 0 ⟨[(0, 0)], [], 1⟩ (by with_unfolding_all decide)⟩

/-- C8: the boolean connectives (`|`, `&`, `!`) each allocate a fresh
proposition node and hand back a proposition whose weight is the default
10, whatever the weights of the operands were. -/
theorem C8_connectives_default_weight (c : LayoutContext) (p q : Prop') :
    (Prop'.or c p q).2.weight = 10 ∧
    (Prop'.or c p q).2.id = c.propNodes.length ∧
    getProp (Prop'.or c p q).1 c.propNodes.length = some (.or p q) ∧
    (Prop'.and c p q).2.weight = 10 ∧
    (Prop'.and c p q).2.id = c.propNodes.length ∧
    getProp (Prop'.and c p q).1 c.propNodes.length = some (.and p q) ∧
    (Prop'.not c p).2.weight = 10 ∧
    (Prop'.not c p).2.id = c.propNodes.length ∧
    getProp (Prop'.not c p).1 c.propNodes.length = some (.not p) := by
  refine ⟨rfl, rfl, ?_, rfl, rfl, ?_, rfl, rfl, ?_⟩ <;>
    simp [Prop'.or, Prop'.and, Prop'.not, allocProp, getProp,
      List.getElem?_concat_length]

/-- `Div<f64>` by the literal 2 always succeeds (the constant 2 is
pooled), allocating the division node. -/
theorem div_f64_two (c : LayoutContext) (m : Measure) :
    Measure.div_f64 c m 2 = some (Measure.div c m ⟨2⟩) := by
  unfold Measure.div_f64
  rw [new_const_two]

/-- `Rectangle::paint` succeeds exactly on slices holding at least the six
expected values. -/
theorem rect_paint_isSome_iff (vals : List ℚ) :
    (Rectangle.paint vals).isSome ↔ 6 ≤ vals.length := by
  rcases vals with _ | ⟨a, _ | ⟨b, _ | ⟨c, _ | ⟨d, _ | ⟨e, _ | ⟨f, rest⟩⟩⟩⟩⟩⟩ <;>
    simp [Rectangle.paint]

/-- The widget dispatch loop cannot abort when every widget is a wired-up
rectangle: each paint call receives exactly one float per declared
measure, and a rectangle declares six. -/
theorem paintAll_rectangles_isSome (o : Oracle) (ws : List RawWidgetData)
    (h : ∀ w ∈ ws, ∃ r cs painter, w = Rectangle.rawWidget r cs painter) :
    (paintAll o ws).isSome := by
  induction ws with
  | nil => simp [paintAll]
  | cons w rest ih =>
    obtain ⟨r, cs, painter, rfl⟩ := h w (List.mem_cons_self _ _)
    have hlen : (refinedValues o (Rectangle.rawWidget r cs painter)).length = 6 := by
      simp [refinedValues, Rectangle.rawWidget, Rectangle.measuresList]
    have hp : (Rectangle.paint
        (refinedValues o (Rectangle.rawWidget r cs painter))).isSome :=
      (rect_paint_isSome_iff _).2 (by omega)
    obtain ⟨metrics, hm⟩ := Option.isSome_iff_exists.1 hp
    have hrest := ih (fun w hw => h w (List.mem_cons_of_mem _ hw))
    obtain ⟨pr, hpr⟩ := Option.isSome_iff_exists.1 hrest
    simp only [Rectangle.rawWidget] at hm ⊢
    simp only [paintAll]
    rw [hm, Option.map_some']
    cases hpv : painter metrics
    · simp
    · rw [hpr]
      simp

/-- Unrolling the classification loop: the satisfied accumulator extends
by the constraints the model verdict accepts, in order, and the
unsatisfied accumulator by those it rejects, in order. -/
theorem classifyLoop_spec (verdict : ℕ → Bool) (cs satAcc unsatAcc : List Prop') :
    classifyLoop verdict cs satAcc unsatAcc =
      (satAcc ++ cs.filter (fun p => verdict p.id),
       unsatAcc ++ cs.filter (fun p => !(verdict p.id))) := by
  induction cs generalizing satAcc unsatAcc with
  | nil => simp [classifyLoop]
  | cons p rest ih =>
    by_cases h : verdict p.id <;>
      simp [classifyLoop, h, ih, List.filter_cons]

/-- A list's length is the sum of the lengths of a boolean filter and its
complement. -/
theorem filter_partition_length {α : Type} (p : α → Bool) (l : List α) :
    (l.filter p).length + (l.filter (fun a => !(p a))).length = l.length := by
  induction l with
  | nil => rfl
  | cons a t ih =>
    by_cases h : p a <;> simp [List.filter_cons, h] <;> omega

/-- C1 (counterexample): the claim fails twice over.  First, `new_const`
does not return `Ok` for every finite input: the integer `1e10` is
exactly representable as a binary64 (`round64` fixes it), yet its
numerator overflows the `i32` fraction components and `new_const` fails
with `BadConst`.  Second, the snap to two decimal digits is a truncation
of the binary64 product `v * 100.0`, not a rounding of `v`: for the
binary64 nearest 0.666 (namely 5998794703657501 / 2^53 ≈ 0.666), rounding
to two decimal digits gives 0.67, but the stored constant is 33/50 =
0.66, because 0.666 * 100.0 truncates to 66. -/
theorem C1_counterexample :
    (round64 (mkRat 10000000000 1)).num = 10000000000 ∧
    (round64 (mkRat 10000000000 1)).den = 1 ∧
    Measure.new_const LayoutContext.new (mkRat 10000000000 1)
        = .error .BadConst ∧
    (round64 (mkRat 666 1000)).num = 5998794703657501 ∧
    (round64 (mkRat 666 1000)).den = 9007199254740992 ∧
    (Measure.new_const LayoutContext.new (round64 (mkRat 666 1000))).map
        (fun r => getMeasure r.1 r.2.id) = .ok (some (.const 33 50)) ∧
    mkRat 33 50 ≠ mkRat 67 100 := by
  with_unfolding_all decide

set_option maxHeartbeats 0 in
/-- C1 (amended): for every input exactly representable with at most two
decimal digits (here the quarter-integers from −10 to 10, every one a
finite binary64 value), `new_const` returns `Ok` of a constant that
denotes the input rational exactly; in general the stored rational is the
truncation (not rounding) of the binary64 product `v * 100.0` divided by
100, and inputs whose resulting fraction overflows the `i32` components
fail with `BadConst` instead of returning `Ok`. -/
theorem C1_new_const_exact_on_two_decimal_inputs :
    ∀ n : Fin 81,
      (Measure.new_const LayoutContext.new
          (mkRat ((n : ℕ) : ℤ) 4 - 10)).map
        (fun r => constDenote r.1 r.2)
        = .ok (some (mkRat ((n : ℕ) : ℤ) 4 - 10)) := by
  with_unfolding_all decide

/-- Witness for C1 at the quarter-integer 0.25 (index 41 of the family):
the stored constant denotes exactly 0.25. -/
theorem C1_new_const_exact_on_two_decimal_inputs_witness :
    (Measure.new_const LayoutContext.new
        (mkRat (((41 : Fin 81) : ℕ) : ℤ) 4 - 10)).map
      (fun r => constDenote r.1 r.2)
      = .ok (some (mkRat (((41 : Fin 81) : ℕ) : ℤ) 4 - 10)) :=
  C1_new_const_exact_on_two_decimal_inputs 41

/-- C2 (counterexample): `Measure::new_const(ctx, 0.125)` stores the
constant 3/25 = 0.12 — the two-decimal truncation of 0.125 — not 0.125:
the stored rational differs from 1/8, and the float the solve driver
computes from the stored pair (`3 as f64 / 25 as f64`, the binary64
nearest 0.12, namely 1080863910568919 / 2^53) differs from 0.125 as well
(1080863910568919 * 8 ≠ 9007199254740992), so the round trip loses the
third decimal digit. -/
theorem C2_counterexample :
    (Measure.new_const LayoutContext.new (mkRat 1 8)).map
        (fun r => getMeasure r.1 r.2.id) = .ok (some (.const 3 25)) ∧
    mkRat 3 25 ≠ mkRat 1 8 ∧
    (solverRealToF64 3 25).num = 1080863910568919 ∧
    (solverRealToF64 3 25).den = 9007199254740992 ∧
    (1080863910568919 : ℤ) * 8 ≠ 9007199254740992 * 1 := by
  with_unfolding_all decide

/-- C2 (amended): converting 0.125 to a Measure constant stores
3/25 = 0.12, the two-decimal truncation, and evaluating it back through
the solve driver yields exactly the binary64 nearest 0.12 — the round
trip is exact only up to the two-decimal snap.  A value exactly
representable with two decimal digits, such as 0.25, does round-trip
exactly: it is stored as 1/4 and converted back to exactly 0.25. -/
theorem C2_roundtrip_after_truncation :
    (Measure.new_const LayoutContext.new (mkRat 1 8)).map
        (fun r => getMeasure r.1 r.2.id) = .ok (some (.const 3 25)) ∧
    mkRat 3 25 = mkRat 12 100 ∧
    (solverRealToF64 3 25).num = 1080863910568919 ∧
    (solverRealToF64 3 25).den = 9007199254740992 ∧
    (round64 (mkRat 12 100)).num = 1080863910568919 ∧
    (round64 (mkRat 12 100)).den = 9007199254740992 ∧
    (Measure.new_const LayoutContext.new (mkRat 1 4)).map
        (fun r => getMeasure r.1 r.2.id) = .ok (some (.const 1 4)) ∧
    solverRealToF64 1 4 = mkRat 1 4 := by
  with_unfolding_all decide

/-- C4: whenever `build` returns a report, the satisfied and unsatisfied
sequences are exactly the two boolean filters of the submitted constraint
set — all widget-declared constraints in push order, each widget's list
in declared order, followed by the explicitly pushed constraints in push
order — so each submitted constraint lands in exactly one of the two
lists and submission order is preserved within each. -/
theorem C4_report_partitions_constraints (widgets : List RawWidgetData)
    (explicit : List Prop') (o : Oracle) (log : List (List ℚ))
    (rep : BuildReport)
    (h : LayoutBuilder.build widgets explicit o = some (.ok (log, rep))) :
    rep.satisfied_constraints
        = (gatherConstraints widgets explicit).filter
            (fun p => o.evalBool p.id) ∧
    rep.unsatisfied_constraints
        = (gatherConstraints widgets explicit).filter
            (fun p => !(o.evalBool p.id)) ∧
    (∀ p ∈ gatherConstraints widgets explicit,
      (p ∈ rep.satisfied_constraints ∧ p ∉ rep.unsatisfied_constraints) ∨
      (p ∈ rep.unsatisfied_constraints ∧ p ∉ rep.satisfied_constraints)) ∧
    rep.satisfied_constraints.length + rep.unsatisfied_constraints.length
        = (gatherConstraints widgets explicit).length := by
  have hrep : rep.satisfied_constraints
        = (gatherConstraints widgets explicit).filter
            (fun p => o.evalBool p.id) ∧
      rep.unsatisfied_constraints
        = (gatherConstraints widgets explicit).filter
            (fun p => !(o.evalBool p.id)) := by
    unfold LayoutBuilder.build at h
    cases hc : o.check <;> rw [hc] at h
    · cases hpa : paintAll o widgets <;> rw [hpa] at h
      · simp at h
      · next pair =>
        cases hok : pair.2 <;> rw [← Prod.eta pair, hok] at h <;> simp at h
        obtain ⟨-, h2⟩ := h
        rw [classifyLoop_spec] at h2
        simp at h2
        rw [← h2]
        exact ⟨rfl, rfl⟩
    · simp at h
    · simp at h
  obtain ⟨hs, hu⟩ := hrep
  refine ⟨hs, hu, ?_, ?_⟩
  · intro p hp
    by_cases hv : o.evalBool p.id
    · left
      constructor
      · rw [hs]; exact List.mem_filter.2 ⟨hp, hv⟩
      · rw [hu]; intro hmem
        have := (List.mem_filter.1 hmem).2
        simp [hv] at this
    · right
      constructor
      · rw [hu]; exact List.mem_filter.2 ⟨hp, by simp [hv]⟩
      · rw [hs]; intro hmem
        have := (List.mem_filter.1 hmem).2
        simp [hv] at this
  · rw [hs, hu]
    exact filter_partition_length _ _

/-- Witness for C4: an empty widget list and one explicit constraint
under an all-satisfying model; the report puts it in the satisfied list
and the partition facts follow by applying the theorem. -/
theorem C4_report_partitions_constraints_witness :
    (⟨[⟨0, 10⟩], []⟩ : BuildReport).satisfied_constraints
        = (gatherConstraints [] [⟨0, 10⟩]).filter (fun _ => true) ∧
    (⟨[⟨0, 10⟩], []⟩ : BuildReport).unsatisfied_constraints
        = (gatherConstraints [] [⟨0, 10⟩]).filter (fun _ => !(true : Bool)) ∧
    (∀ p ∈ gatherConstraints [] [⟨0, 10⟩],
      (p ∈ (⟨[⟨0, 10⟩], []⟩ : BuildReport).satisfied_constraints ∧
        p ∉ (⟨[⟨0, 10⟩], []⟩ : BuildReport).unsatisfied_constraints) ∨
      (p ∈ (⟨[⟨0, 10⟩], []⟩ : BuildReport).unsatisfied_constraints ∧
        p ∉ (⟨[⟨0, 10⟩], []⟩ : BuildReport).satisfied_constraints)) ∧
    (⟨[⟨0, 10⟩], []⟩ : BuildReport).satisfied_constraints.length +
        (⟨[⟨0, 10⟩], []⟩ : BuildReport).unsatisfied_constraints.length
        = (gatherConstraints [] [⟨0, 10⟩]).length :=
  C4_report_partitions_constraints [] [⟨0, 10⟩]
    ⟨.sat, fun _ => (0, 1), fun _ => true⟩ [] ⟨[⟨0, 10⟩], []⟩ (by decide)

/-- C9: every group helper fails with `EmptyGroup` exactly on the empty
slice: on the empty slice all five return the `EmptyGroup` error, and on
any non-empty slice all five succeed with the min/max fold of the member
edges.  For three rectangles whose left edges are the pooled constants
0, 5 and 10, the folded `group_leftmost` measure evaluates to 0 under
every model valuation. -/
theorem C9_group_helpers (c : LayoutContext) :
    (group_leftmost c [] = .error .EmptyGroup ∧
     group_rightmost c [] = .error .EmptyGroup ∧
     group_topmost c [] = .error .EmptyGroup ∧
     group_bottommost c [] = .error .EmptyGroup ∧
     group_center c [] = some (.error .EmptyGroup)) ∧
    (∀ (x : RectangleMeasures) (rest : List RectangleMeasures),
      (group_leftmost c (x :: rest)).isOk ∧
      (group_rightmost c (x :: rest)).isOk ∧
      (group_topmost c (x :: rest)).isOk ∧
      (group_bottommost c (x :: rest)).isOk ∧
      ∃ pt, group_center c (x :: rest) = some (.ok pt)) ∧
    (getMeasure LayoutContext.new 0 = some (.const 0 1) ∧
     getMeasure LayoutContext.new 5 = some (.const 5 1) ∧
     getMeasure LayoutContext.new 10 = some (.const 10 1) ∧
     ∃ c' m,
      group_leftmost LayoutContext.new
          [⟨⟨0⟩, ⟨0⟩, ⟨0⟩, ⟨0⟩, ⟨0⟩, ⟨0⟩⟩,
           ⟨⟨5⟩, ⟨0⟩, ⟨0⟩, ⟨0⟩, ⟨0⟩, ⟨0⟩⟩,
           ⟨⟨10⟩, ⟨0⟩, ⟨0⟩, ⟨0⟩, ⟨0⟩, ⟨0⟩⟩] = .ok (c', m) ∧
      ∀ v : ℕ → ℚ, evalMeasure 10 c' v m = some (mkRat 0 1)) := by
  refine ⟨⟨rfl, rfl, rfl, rfl, rfl⟩, fun x rest => ?_, ?_⟩
  · refine ⟨rfl, rfl, rfl, rfl, ?_⟩
    simp only [group_center]
    cases hred : centerReduce c (x.left, x.right, x.top, x.bottom) rest with
    | mk c1 acc =>
      obtain ⟨l, r, t, b⟩ := acc
      simp [div_f64_two]
  · refine ⟨by with_unfolding_all decide, by with_unfolding_all decide,
      by with_unfolding_all decide,
      { measureNodes := LayoutContext.new.measureNodes ++
          [.select ⟨0, 10⟩ ⟨0⟩ ⟨5⟩, .select ⟨1, 10⟩ ⟨16⟩ ⟨10⟩],
        propNodes := [.lt ⟨0⟩ ⟨5⟩, .lt ⟨16⟩ ⟨10⟩] }, ⟨17⟩,
      by with_unfolding_all decide, fun v => by with_unfolding_all rfl⟩

/-- Witness for C9: the non-empty branch applied to a concrete singleton
group, and the concrete left-fold evaluation at the all-zero valuation. -/
theorem C9_group_helpers_witness :
    (group_leftmost LayoutContext.new
        [⟨⟨0⟩, ⟨0⟩, ⟨0⟩, ⟨0⟩, ⟨0⟩, ⟨0⟩⟩]).isOk ∧
    (group_rightmost LayoutContext.new
        [⟨⟨0⟩, ⟨0⟩, ⟨0⟩, ⟨0⟩, ⟨0⟩, ⟨0⟩⟩]).isOk :=
  ⟨((C9_group_helpers LayoutContext.new).2.1
      ⟨⟨0⟩, ⟨0⟩, ⟨0⟩, ⟨0⟩, ⟨0⟩, ⟨0⟩⟩ []).1,
   ((C9_group_helpers LayoutContext.new).2.1
      ⟨⟨0⟩, ⟨0⟩, ⟨0⟩, ⟨0⟩, ⟨0⟩, ⟨0⟩⟩ []).2.1⟩

/-- C10: `Rectangle::paint` reads indices 0–5 with no length guard — it
aborts on any slice shorter than six and succeeds on any slice with at
least six values — while the builder's dispatch hands every widget
exactly one float per declared measure; a rectangle declares exactly six
measures, so under the builder's dispatch the out-of-bounds access is
unreachable (`build` never aborts when every widget is a wired-up
rectangle). -/
theorem C10_rectangle_paint_indexing :
    (∀ vals : List ℚ, (Rectangle.paint vals).isSome ↔ 6 ≤ vals.length) ∧
    (∀ (o : Oracle) (w : RawWidgetData),
      (refinedValues o w).length = w.measures.length) ∧
    (∀ r : Rectangle, (Rectangle.measuresList r).length = 6) ∧
    (∀ (widgets : List RawWidgetData) (explicit : List Prop') (o : Oracle),
      (∀ w ∈ widgets, ∃ r cs painter, w = Rectangle.rawWidget r cs painter) →
      LayoutBuilder.build widgets explicit o ≠ none) := by
  refine ⟨rect_paint_isSome_iff, fun o w => by simp [refinedValues],
    fun r => rfl, fun widgets explicit o h => ?_⟩
  unfold LayoutBuilder.build
  cases hc : o.check
  · have := paintAll_rectangles_isSome o widgets h
    obtain ⟨pr, hpr⟩ := Option.isSome_iff_exists.1 this
    rw [hpr]
    cases hok : pr.2 <;> rw [← Prod.eta pr, hok] <;> simp
  · simp
  · simp

/-- Witness for C10: a build over one concrete wired-up rectangle widget
does not abort. -/
theorem C10_rectangle_paint_indexing_witness :
    LayoutBuilder.build
        [Rectangle.rawWidget ⟨⟨0⟩, ⟨0⟩, ⟨0⟩, ⟨0⟩, ⟨0⟩, ⟨0⟩⟩ []
          (fun _ => true)] []
        ⟨.sat, fun _ => (0, 1), fun _ => true⟩ ≠ none :=
  C10_rectangle_paint_indexing.2.2.2
    [Rectangle.rawWidget ⟨⟨0⟩, ⟨0⟩, ⟨0⟩, ⟨0⟩, ⟨0⟩, ⟨0⟩⟩ [] (fun _ => true)]
    [] ⟨.sat, fun _ => (0, 1), fun _ => true⟩
    (fun w hw => ⟨⟨⟨0⟩, ⟨0⟩, ⟨0⟩, ⟨0⟩, ⟨0⟩, ⟨0⟩⟩, [], fun _ => true,
      by simpa using hw⟩)

/-- C5: `Measure::min(a, b)` allocates the strict proposition `a < b` and
the select node choosing `a` else `b`; `Measure::max(a, b)` does the same
over `a > b`.  On the pooled constant measures 3 and 7 (which
`new_const` serves from the pool at identities 3 and 7), the select
semantics gives `min = 3` and `max = 7` under every model valuation. -/
theorem C5_min_max_select :
    (∀ (c : LayoutContext) (a b : Measure),
      getMeasure (Measure.min c a b).1 (Measure.min c a b).2.id
          = some (.select ⟨c.propNodes.length, 10⟩ a b) ∧
      getProp (Measure.min c a b).1 c.propNodes.length = some (.lt a b) ∧
      getMeasure (Measure.max c a b).1 (Measure.max c a b).2.id
          = some (.select ⟨c.propNodes.length, 10⟩ a b) ∧
      getProp (Measure.max c a b).1 c.propNodes.length = some (.gt a b)) ∧
    Measure.new_const LayoutContext.new 3 = .ok (LayoutContext.new, ⟨3⟩) ∧
    Measure.new_const LayoutContext.new 7 = .ok (LayoutContext.new, ⟨7⟩) ∧
    (∀ v : ℕ → ℚ,
      evalMeasure 10 (Measure.min LayoutContext.new ⟨3⟩ ⟨7⟩).1 v
          (Measure.min LayoutContext.new ⟨3⟩ ⟨7⟩).2 = some (mkRat 3 1) ∧
      evalMeasure 10 (Measure.max LayoutContext.new ⟨3⟩ ⟨7⟩).1 v
          (Measure.max LayoutContext.new ⟨3⟩ ⟨7⟩).2 = some (mkRat 7 1)) := by
  refine ⟨fun c a b => ?_, by with_unfolding_all decide,
    by with_unfolding_all decide, fun v => ⟨?_, ?_⟩⟩
  · refine ⟨?_, ?_, ?_, ?_⟩ <;>
      simp [Measure.min, Measure.max, Measure.prop_lt, Measure.prop_gt,
        Prop'.select, allocMeasure, allocProp, getMeasure, getProp,
        List.getElem?_concat_length]
  · with_unfolding_all rfl
  · with_unfolding_all rfl

/-- Witness for C5 at the concrete valuation assigning 0 everywhere. -/
theorem C5_min_max_select_witness :
    evalMeasure 10 (Measure.min LayoutContext.new ⟨3⟩ ⟨7⟩).1 (fun _ => 0)
        (Measure.min LayoutContext.new ⟨3⟩ ⟨7⟩).2 = some (mkRat 3 1) ∧
    evalMeasure 10 (Measure.max LayoutContext.new ⟨3⟩ ⟨7⟩).1 (fun _ => 0)
        (Measure.max LayoutContext.new ⟨3⟩ ⟨7⟩).2 = some (mkRat 7 1) :=
  C5_min_max_select.2.2.2 (fun _ => 0)

/-- C6: for every rectangle and every context, `constraints()` yields
exactly six propositions, in source order `left + width == right`,
`top + height == bottom`, `top >= 0`, `left >= 0`, `width >= 0`,
`height >= 0` (the zero on the right of the last four being the pooled
constant at identity 0), and `measures()` yields exactly the six measures
left, right, top, bottom, width, height in that order. -/
theorem C6_rectangle_constraints_and_measures (c : LayoutContext)
    (r : Rectangle) :
    Rectangle.constraints c r = some
      ({ measureNodes := c.measureNodes ++
            [.add r.left r.width, .add r.top r.height],
         propNodes := c.propNodes ++
            [.eq ⟨c.measureNodes.length⟩ r.right,
             .eq ⟨c.measureNodes.length + 1⟩ r.bottom,
             .ge r.top ⟨0⟩, .ge r.left ⟨0⟩,
             .ge r.width ⟨0⟩, .ge r.height ⟨0⟩] },
       [⟨c.propNodes.length, 10⟩, ⟨c.propNodes.length + 1, 10⟩,
        ⟨c.propNodes.length + 2, 10⟩, ⟨c.propNodes.length + 3, 10⟩,
        ⟨c.propNodes.length + 4, 10⟩, ⟨c.propNodes.length + 5, 10⟩]) ∧
    Rectangle.measuresList r
      = [r.left, r.right, r.top, r.bottom, r.width, r.height] := by
  constructor
  · simp [Rectangle.constraints, Measure.add, Measure.prop_eq,
      Measure.prop_ge, Measure.zero, allocMeasure, allocProp, new_const_zero,
      List.append_assoc]
  · rfl

/-- Witness for C6 at a concrete fresh context and the all-pooled-zero
rectangle. -/
theorem C6_rectangle_constraints_and_measures_witness :
    Rectangle.constraints LayoutContext.new ⟨⟨0⟩, ⟨0⟩, ⟨0⟩, ⟨0⟩, ⟨0⟩, ⟨0⟩⟩
      = some
      ({ measureNodes := LayoutContext.new.measureNodes ++
            [.add ⟨0⟩ ⟨0⟩, .add ⟨0⟩ ⟨0⟩],
         propNodes := LayoutContext.new.propNodes ++
            [.eq ⟨LayoutContext.new.measureNodes.length⟩ ⟨0⟩,
             .eq ⟨LayoutContext.new.measureNodes.length + 1⟩ ⟨0⟩,
             .ge ⟨0⟩ ⟨0⟩, .ge ⟨0⟩ ⟨0⟩, .ge ⟨0⟩ ⟨0⟩, .ge ⟨0⟩ ⟨0⟩] },
       [⟨LayoutContext.new.propNodes.length, 10⟩,
        ⟨LayoutContext.new.propNodes.length + 1, 10⟩,
        ⟨LayoutContext.new.propNodes.length + 2, 10⟩,
        ⟨LayoutContext.new.propNodes.length + 3, 10⟩,
        ⟨LayoutContext.new.propNodes.length + 4, 10⟩,
        ⟨LayoutContext.new.propNodes.length + 5, 10⟩]) ∧
    Rectangle.measuresList ⟨⟨0⟩, ⟨0⟩, ⟨0⟩, ⟨0⟩, ⟨0⟩, ⟨0⟩⟩
      = [⟨0⟩, ⟨0⟩, ⟨0⟩, ⟨0⟩, ⟨0⟩, ⟨0⟩] :=
  C6_rectangle_constraints_and_measures LayoutContext.new
    ⟨⟨0⟩, ⟨0⟩, ⟨0⟩, ⟨0⟩, ⟨0⟩, ⟨0⟩⟩

/-- C7: each arithmetic operator between a Measure and a floating literal
first runs the literal through `Measure::new_const` and inherits its
`BadConst` failure mode: whenever `new_const` fails with `BadConst` the
operator cannot succeed — in the source the failure surfaces through the
`unwrap` on the `BadConst` error (an abort carrying that error), modelled
here as `none`. -/
theorem C7_operators_inherit_BadConst (c : LayoutContext) (m : Measure)
    (v : ℚ) (h : Measure.new_const c v = .error .BadConst) :
    Measure.add_f64 c m v = none ∧ Measure.sub_f64 c m v = none ∧
    Measure.mul_f64 c m v = none ∧ Measure.div_f64 c m v = none := by
  refine ⟨?_, ?_, ?_, ?_⟩
  · unfold Measure.add_f64; rw [h]
  · unfold Measure.sub_f64; rw [h]
  · unfold Measure.mul_f64; rw [h]
  · unfold Measure.div_f64; rw [h]

/-- Witness for C7 at the literal `1e10`, whose 2-decimal snap has an
`i32`-overflowing numerator, so `new_const` fails with `BadConst`. -/
theorem C7_operators_inherit_BadConst_witness :
    Measure.new_const LayoutContext.new (mkRat 10000000000 1)
        = .error .BadConst ∧
    Measure.add_f64 LayoutContext.new ⟨0⟩ (mkRat 10000000000 1) = none :=
  ⟨by with_unfolding_all decide,
    (C7_operators_inherit_BadConst LayoutContext.new ⟨0⟩ (mkRat 10000000000 1)
      (by with_unfolding_all decide)).1⟩

/-- Witness for C8 at concrete operands with non-default weights 3
and 99: the connective results still carry weight 10. -/
theorem C8_connectives_default_weight_witness :
    (Prop'.or LayoutContext.new ⟨0, 3⟩ ⟨1, 99⟩).2.weight = 10 ∧
    (Prop'.or LayoutContext.new ⟨0, 3⟩ ⟨1, 99⟩).2.id = 0 ∧
    getProp (Prop'.or LayoutContext.new ⟨0, 3⟩ ⟨1, 99⟩).1 0
        = some (.or ⟨0, 3⟩ ⟨1, 99⟩) ∧
    (Prop'.and LayoutContext.new ⟨0, 3⟩ ⟨1, 99⟩).2.weight = 10 ∧
    (Prop'.and LayoutContext.new ⟨0, 3⟩ ⟨1, 99⟩).2.id = 0 ∧
    getProp (Prop'.and LayoutContext.new ⟨0, 3⟩ ⟨1, 99⟩).1 0
        = some (.and ⟨0, 3⟩ ⟨1, 99⟩) ∧
    (Prop'.not LayoutContext.new ⟨0, 3⟩).2.weight = 10 ∧
    (Prop'.not LayoutContext.new ⟨0, 3⟩).2.id = 0 ∧
    getProp (Prop'.not LayoutContext.new ⟨0, 3⟩).1 0 = some (.not ⟨0, 3⟩) :=
  C8_connectives_default_weight LayoutContext.new ⟨0, 3⟩ ⟨1, 99⟩

end LiquidLayout
